import Mathlib

set_option linter.unusedVariables false

/-!
Shallow embedding of `internal/pkg/provider/proxmox_helpers.go`
(omni-infra-provider-proxmox): the three Proxmox helper operations
`findISOStorageName`, `storageHasISO` and `startStorageDownload`, together
with the JSON decoding step each performs on its response body.

The network transport (`proxmoxClient.Get`/`Post`) is external to the
fragment: each top-level operation here takes the response body it would
have received. Transport failures propagate before these functions see a
body, exactly as in the source, so they are outside the embedding.
-/

namespace ProxmoxHelpers

/-- Generic JSON value: the image of Go `any` after `encoding/json`
unmarshalling (`nil`, `bool`, `float64`, `string`, `[]any`,
`map[string]any`). Numbers are modelled as `Int`; none of the helper logic
inspects numeric values. -/
inductive JSON where
  | null
  | bool (b : Bool)
  | num (n : Int)
  | str (s : String)
  | arr (elems : List JSON)
  | obj (fields : List (String × JSON))
deriving Repr

/-- Decoded Go `map[string]any`: an association list (JSON decoding makes
keys unique; lookup takes the first occurrence). -/
abbrev Obj := List (String × JSON)

/-- Map indexing `item[key]`: `some v` when the key is present, `none`
when absent (Go yields the zero value `nil`, failing any type assertion). -/
def getField : Obj → String → Option JSON
  | [], _ => none
  | (k, v) :: rest, key => if k == key then some v else getField rest key

/-- Go type assertion `x.(string)` on a decoded JSON value. -/
def asString : JSON → Option String
  | .str s => some s
  | _ => none

/-- Combined `item[key].(string)`: `some s` exactly when the field is
present and string-typed. -/
def getStr (o : Obj) (key : String) : Option String :=
  (getField o key).bind asString

/-- String shape tests used to classify the `data` payload, mirroring the
arms of the Go type switch. -/
def isStr : JSON → Bool
  | .str _ => true
  | _ => false

/-- Object shape test for the `map[string]any` arm of the type switch. -/
def isObj : JSON → Bool
  | .obj _ => true
  | _ => false

/-- Model of Go `strings.HasSuffix s suffix`. On valid UTF-8 the byte-level
suffix test agrees with the character-list suffix test, which is what we
use. -/
def hasSuffix (s suffix : String) : Bool :=
  suffix.data.isSuffixOf s.data

/-- Errors surfaced by the helpers, tagged by which `fmt.Errorf` produced
them. `decode` wraps the original unmarshal failure (`%w`), `notFound`
carries the formatted message naming the node, `unexpected` carries the
message and the decoded payload printed with `%v`. -/
inductive PErr where
  | decode (msg : String) (cause : String)
  | notFound (msg : String)
  | unexpected (msg : String) (payload : Obj)
deriving Repr

/-- Response body as handed over by the client: either bytes that are not
valid JSON (carrying the parse error `json.Unmarshal` would report), or a
parsed JSON value. -/
inductive Body where
  | invalid (parseErr : String)
  | json (v : JSON)

/-- Go `json.Unmarshal(raw, &items)` for `items []map[string]any`:
top-level `null` yields a nil slice, an array is accepted element-wise
(`null` elements become nil maps), anything else is an unmarshal error. -/
def toObjectList : List JSON → Except String (List Obj)
  | [] => .ok []
  | x :: rest =>
    match x with
    | .obj fields => (toObjectList rest).map (fields :: ·)
    | .null => (toObjectList rest).map (([] : Obj) :: ·)
    | _ => .error "json: cannot unmarshal value into Go value of type map"

/-- Unmarshal a body into `[]map[string]any`, as both listing endpoints do. -/
def unmarshalObjList : Body → Except String (List Obj)
  | .invalid parseErr => .error parseErr
  | .json .null => .ok []
  | .json (.arr xs) => toObjectList xs
  | .json _ => .error "json: cannot unmarshal value into Go value of type slice"

/-- Unmarshal a body into `map[string]any`, as the download endpoint does
(`null` yields a nil map). -/
def unmarshalObjMap : Body → Except String Obj
  | .invalid parseErr => .error parseErr
  | .json .null => .ok []
  | .json (.obj fields) => .ok fields
  | .json _ => .error "json: cannot unmarshal value into Go value of type map"

/-- Candidate storage name of one listing record: the `storage` field when
it is string-typed (the `else if` on `name` is then not consulted, even for
the empty string), else the `name` field when string-typed, else `""`. -/
def candidateName (item : Obj) : String :=
  match getStr item "storage" with
  | some s => s
  | none =>
    match getStr item "name" with
    | some s => s
    | none => ""

/-- Inner scan of a `content` array: true iff some element is the string
`"iso"`; non-string elements are skipped by the failed type assertion. -/
def contentHasISO : List JSON → Bool
  | [] => false
  | c :: rest =>
    match c with
    | .str cs => if cs == "iso" then true else contentHasISO rest
    | _ => contentHasISO rest

/-- Whether a listing record advertises `"iso"` content: its `content`
field must be an array (`.([]any)` assertion) containing the string
`"iso"`. -/
def hasISOContent (item : Obj) : Bool :=
  match getField item "content" with
  | some (.arr content) => contentHasISO content
  | _ => false

/-- The record loop of `findISOStorageName`: skip records with an empty
candidate name, return the first remaining record advertising `"iso"`
content, and fall through to the not-found error. -/
def findISOLoop (node : String) : List Obj → Except PErr String
  | [] => .error (.notFound ("no ISO-capable storage found on node " ++ node))
  | item :: rest =>
    let name := candidateName item
    if name == "" then findISOLoop node rest
    else if hasISOContent item then .ok name
    else findISOLoop node rest

/-- findISOStorageName: decode the storage listing, wrapping unmarshal
failures, then scan for the first ISO-capable storage. -/
def findISOStorageName (node : String) (body : Body) : Except PErr String :=
  match unmarshalObjList body with
  | .error cause => .error (.decode "failed to parse storage list" cause)
  | .ok items => findISOLoop node items

/-- The `volid` match rule: `strings.HasSuffix(v, isoName) || v == isoName`. -/
def volidMatches (v isoName : String) : Bool :=
  hasSuffix v isoName || v == isoName

/-- One content record matches when its string-typed `volid` passes the
suffix-or-equality rule, or failing that when its string-typed `name`
equals the filename; `||` short-circuits as the two sequential `if`s do. -/
def recordMatchesISO (it : Obj) (isoName : String) : Bool :=
  (match getStr it "volid" with
   | some v => volidMatches v isoName
   | none => false)
  ||
  (match getStr it "name" with
   | some n => n == isoName
   | none => false)

/-- The record loop of `storageHasISO`: true at the first matching record,
false when the records are exhausted. -/
def storageHasISOLoop (isoName : String) : List Obj → Bool
  | [] => false
  | it :: rest =>
    if recordMatchesISO it isoName then true else storageHasISOLoop isoName rest

/-- storageHasISO: decode the content listing, wrapping unmarshal failures,
then scan the records; absence of a match is the normal `false` outcome. -/
def storageHasISO (node storage isoName : String) (body : Body) :
    Except PErr Bool :=
  match unmarshalObjList body with
  | .error cause => .error (.decode "failed to parse storage content" cause)
  | .ok items => .ok (storageHasISOLoop isoName items)

/-- Parameters posted to the download endpoint. -/
def downloadParams (isoName sourceURL : String) : List (String × String) :=
  [("content", "iso"), ("filename", isoName), ("url", sourceURL)]

/-- Extraction step of `startStorageDownload` on the decoded wrapper:
a string `data` is returned unchanged, an object `data` yields its
string-typed `upid`, and every other shape is the unexpected-response
error carrying the wrapper. -/
def extractTaskID (wrapper : Obj) : Except PErr String :=
  match getField wrapper "data" with
  | some (.str v) => .ok v
  | some (.obj v) =>
    (match getStr v "upid" with
     | some upid => .ok upid
     | none => .error (.unexpected "unexpected download response" wrapper))
  | _ => .error (.unexpected "unexpected download response" wrapper)

/-- startStorageDownload: decode the download response, wrapping unmarshal
failures, then extract the task identifier. -/
def startStorageDownload (node storage isoName sourceURL : String)
    (body : Body) : Except PErr String :=
  match unmarshalObjMap body with
  | .error cause => .error (.decode "failed to parse download response" cause)
  | .ok wrapper => extractTaskID wrapper

/-! ### Helper lemmas -/

/-- Go `strings.HasSuffix(v, "")` is always true. -/
theorem hasSuffix_empty (s : String) : hasSuffix s "" = true := by
  simp [hasSuffix]

/-- Scanning a content array finds `"iso"` exactly when the array contains
the string element `"iso"`. -/
theorem contentHasISO_iff (xs : List JSON) :
    contentHasISO xs = true ↔ JSON.str "iso" ∈ xs := by
  induction xs with
  | nil => simp [contentHasISO]
  | cons c rest ih =>
    cases c <;> simp [contentHasISO, ih]
    case str s =>
      by_cases h : s = "iso"
      · subst h; simp
      · simp [h, ih, Ne.symm h]

/-- One content record matches exactly when its string-typed volid equals
the filename or has it as suffix, or its string-typed name equals it. -/
theorem recordMatchesISO_iff (it : Obj) (isoName : String) :
    recordMatchesISO it isoName = true ↔
      (∃ v, getStr it "volid" = some v ∧
        (v = isoName ∨ hasSuffix v isoName = true)) ∨
      (∃ n, getStr it "name" = some n ∧ n = isoName) := by
  unfold recordMatchesISO
  cases hv : getStr it "volid" <;> cases hn : getStr it "name" <;>
    simp [volidMatches, Bool.or_eq_true, beq_iff_eq, or_comm]

/-- The content-record loop returns true exactly when some record matches. -/
theorem storageHasISOLoop_iff (isoName : String) (items : List Obj) :
    storageHasISOLoop isoName items = true ↔
      ∃ it ∈ items, recordMatchesISO it isoName = true := by
  induction items with
  | nil => simp [storageHasISOLoop]
  | cons it rest ih =>
    by_cases h : recordMatchesISO it isoName = true
    · simp [storageHasISOLoop, h]
    · simp [storageHasISOLoop, h, ih]

/-- A record with an empty candidate name, or without `"iso"` content, is
passed over by the discovery loop. -/
theorem findISOLoop_skip (node : String) (item : Obj) (rest : List Obj)
    (h : candidateName item = "" ∨ hasISOContent item = false) :
    findISOLoop node (item :: rest) = findISOLoop node rest := by
  rcases h with hc | hiso
  · simp [findISOLoop, hc]
  · by_cases hc2 : candidateName item = ""
    · simp [findISOLoop, hc2]
    · simp [findISOLoop, beq_iff_eq, hc2, hiso]

/-- A record with a non-empty candidate name and `"iso"` content stops the
discovery loop with its candidate name. -/
theorem findISOLoop_hit (node : String) (item : Obj) (rest : List Obj)
    (hname : candidateName item ≠ "") (hiso : hasISOContent item = true) :
    findISOLoop node (item :: rest) = .ok (candidateName item) := by
  simp [findISOLoop, beq_iff_eq, hname, hiso]

/-- When every record is passed over, the discovery loop falls through to
the not-found error naming the node. -/
theorem findISOLoop_notFound (node : String) (items : List Obj)
    (hno : ∀ it ∈ items, candidateName it = "" ∨ hasISOContent it = false) :
    findISOLoop node items =
      .error (.notFound ("no ISO-capable storage found on node " ++ node)) := by
  induction items with
  | nil => rfl
  | cons item rest ih =>
    rw [findISOLoop_skip node item rest (hno item (List.mem_cons_self item rest))]
    exact ih (fun it h => hno it (List.mem_cons_of_mem item h))

/-! ### Claim theorems -/

/-- Claim C2: for every decoded content listing, storageHasISO returns true
iff some record has a string-typed volid equal to the target filename or
ending with it as a suffix, or a string-typed name equal to the target
filename; and within a record a volid match alone already forces the result,
the name rule never being needed. -/
theorem storageHasISO_match_iff (node storage isoName : String) (body : Body)
    (items : List Obj) (hdec : unmarshalObjList body = .ok items) :
    (storageHasISO node storage isoName body = .ok true ↔
      ∃ it ∈ items,
        (∃ v, getStr it "volid" = some v ∧
          (v = isoName ∨ hasSuffix v isoName = true)) ∨
        (∃ n, getStr it "name" = some n ∧ n = isoName)) ∧
    (∀ it v, getStr it "volid" = some v → volidMatches v isoName = true →
      recordMatchesISO it isoName = true) := by
  constructor
  · unfold storageHasISO
    rw [hdec]
    simp only [Except.ok.injEq, storageHasISOLoop_iff]
    constructor
    · rintro ⟨it, hmem, hrec⟩
      exact ⟨it, hmem, (recordMatchesISO_iff it isoName).mp hrec⟩
    · rintro ⟨it, hmem, hrec⟩
      exact ⟨it, hmem, (recordMatchesISO_iff it isoName).mpr hrec⟩
  · intro it v hv hm
    unfold recordMatchesISO
    rw [hv]
    simp [hm]

/-- Witness for C2: the suffix rule fires on a composite volid. -/
theorem storageHasISO_match_iff_witness :
    storageHasISO "pve" "local" "ubuntu.iso"
      (Body.json (JSON.arr [JSON.obj [("volid", JSON.str "local:iso/ubuntu.iso")]]))
      = .ok true := by
  refine ((storageHasISO_match_iff "pve" "local" "ubuntu.iso"
    (Body.json (JSON.arr [JSON.obj [("volid", JSON.str "local:iso/ubuntu.iso")]]))
    [[("volid", JSON.str "local:iso/ubuntu.iso")]] rfl).1).mpr ?_
  exact ⟨[("volid", JSON.str "local:iso/ubuntu.iso")], List.mem_singleton.mpr rfl,
    Or.inl ⟨"local:iso/ubuntu.iso", rfl, Or.inr (by decide)⟩⟩

/-- Claim C7: when no record of the decoded listing matches, storageHasISO
returns false without an error, and on any body the only error it ever
reports is a decode error. -/
theorem storageHasISO_no_match_false (node storage isoName : String)
    (body : Body) (items : List Obj)
    (hdec : unmarshalObjList body = .ok items)
    (hno : ∀ it ∈ items, recordMatchesISO it isoName = false) :
    storageHasISO node storage isoName body = .ok false ∧
    (∀ b : Body, (∃ r, storageHasISO node storage isoName b = .ok r) ∨
      (∃ c, storageHasISO node storage isoName b =
        .error (.decode "failed to parse storage content" c))) := by
  constructor
  · unfold storageHasISO
    rw [hdec]
    simp only [Except.ok.injEq]
    rw [Bool.eq_false_iff]
    intro habs
    obtain ⟨it, hmem, hrec⟩ := (storageHasISOLoop_iff isoName items).mp habs
    rw [hno it hmem] at hrec
    exact Bool.false_ne_true hrec
  · intro b
    unfold storageHasISO
    cases hb : unmarshalObjList b with
    | error c => exact Or.inr ⟨c, rfl⟩
    | ok items2 => exact Or.inl ⟨storageHasISOLoop isoName items2, rfl⟩

/-- Witness for C7: a non-empty listing with no matching entry yields
an errorless false. -/
theorem storageHasISO_no_match_false_witness :
    storageHasISO "pve" "local" "ubuntu.iso"
      (Body.json (JSON.arr [JSON.obj [("volid", JSON.str "local:iso/debian.iso")]]))
      = .ok false :=
  (storageHasISO_no_match_false "pve" "local" "ubuntu.iso"
    (Body.json (JSON.arr [JSON.obj [("volid", JSON.str "local:iso/debian.iso")]]))
    [[("volid", JSON.str "local:iso/debian.iso")]] rfl
    (by intro it h; rw [List.mem_singleton] at h; subst h; decide)).1

/-- Claim C9: with an empty target filename, any decoded listing holding at
least one record with a string-typed volid makes storageHasISO return true,
because the suffix test with an empty suffix always succeeds. -/
theorem storageHasISO_empty_filename (node storage : String) (body : Body)
    (items : List Obj) (it : Obj) (v : String)
    (hdec : unmarshalObjList body = .ok items)
    (hmem : it ∈ items) (hv : getStr it "volid" = some v) :
    storageHasISO node storage "" body = .ok true := by
  unfold storageHasISO
  rw [hdec]
  simp only [Except.ok.injEq, storageHasISOLoop_iff]
  exact ⟨it, hmem, (recordMatchesISO_iff it "").mpr
    (Or.inl ⟨v, hv, Or.inr (hasSuffix_empty v)⟩)⟩

/-- Witness for C9: an arbitrary volid matches the empty filename. -/
theorem storageHasISO_empty_filename_witness :
    storageHasISO "pve" "local" ""
      (Body.json (JSON.arr [JSON.obj [("volid", JSON.str "local:vm-100-disk-0")]]))
      = .ok true :=
  storageHasISO_empty_filename "pve" "local"
    (Body.json (JSON.arr [JSON.obj [("volid", JSON.str "local:vm-100-disk-0")]]))
    [[("volid", JSON.str "local:vm-100-disk-0")]]
    [("volid", JSON.str "local:vm-100-disk-0")] "local:vm-100-disk-0"
    rfl (List.mem_singleton.mpr rfl) rfl

/-- Claim C1 (amended): for every decoded storage listing, the discovery
returns the candidate name of the first record, in listing order, that both
yields a non-empty candidate name and whose content array contains "iso",
regardless of later such records. -/
theorem findISOStorageName_first_match (node : String) (body : Body)
    (pre post : List Obj) (item : Obj)
    (hdec : unmarshalObjList body = .ok (pre ++ item :: post))
    (hpre : ∀ it ∈ pre, candidateName it = "" ∨ hasISOContent it = false)
    (hname : candidateName item ≠ "") (hiso : hasISOContent item = true) :
    findISOStorageName node body = .ok (candidateName item) := by
  have hloop : ∀ pre2 : List Obj,
      (∀ it ∈ pre2, candidateName it = "" ∨ hasISOContent it = false) →
      findISOLoop node (pre2 ++ item :: post) = .ok (candidateName item) := by
    intro pre2
    induction pre2 with
    | nil => exact fun _ => findISOLoop_hit node item post hname hiso
    | cons it rest ih =>
      intro hpre2
      rw [List.cons_append,
        findISOLoop_skip node it (rest ++ item :: post)
          (hpre2 it (List.mem_cons_self it rest))]
      exact ih (fun it2 h => hpre2 it2 (List.mem_cons_of_mem it h))
  unfold findISOStorageName
  rw [hdec]
  exact hloop pre hpre

/-- Witness for C1 (amended): a non-qualifying first record is skipped, the
second record is returned, a qualifying third record is ignored. -/
theorem findISOStorageName_first_match_witness :
    findISOStorageName "pve"
      (Body.json (JSON.arr
        [JSON.obj [("storage", JSON.str "other"), ("content", JSON.arr [JSON.str "vztmpl"])],
         JSON.obj [("storage", JSON.str "local"), ("content", JSON.arr [JSON.str "iso"])],
         JSON.obj [("storage", JSON.str "later"), ("content", JSON.arr [JSON.str "iso"])]]))
      = .ok "local" :=
  findISOStorageName_first_match "pve"
    (Body.json (JSON.arr
      [JSON.obj [("storage", JSON.str "other"), ("content", JSON.arr [JSON.str "vztmpl"])],
       JSON.obj [("storage", JSON.str "local"), ("content", JSON.arr [JSON.str "iso"])],
       JSON.obj [("storage", JSON.str "later"), ("content", JSON.arr [JSON.str "iso"])]]))
    [[("storage", JSON.str "other"), ("content", JSON.arr [JSON.str "vztmpl"])]]
    [[("storage", JSON.str "later"), ("content", JSON.arr [JSON.str "iso"])]]
    [("storage", JSON.str "local"), ("content", JSON.arr [JSON.str "iso"])]
    rfl
    (by intro it h; rw [List.mem_singleton] at h; subst h; exact Or.inr rfl)
    (by decide) rfl

/-- Counterexample to C1 as stated: both records advertise "iso" content,
yet the function returns the name of the second record because the first
qualifying record carries no storage or name field at all. -/
theorem findISOStorageName_first_match_counterexample :
    hasISOContent [("content", JSON.arr [JSON.str "iso"])] = true ∧
    hasISOContent [("storage", JSON.str "local"),
      ("content", JSON.arr [JSON.str "iso"])] = true ∧
    getField [("content", JSON.arr [JSON.str "iso"])] "storage" = none ∧
    getField [("content", JSON.arr [JSON.str "iso"])] "name" = none ∧
    findISOStorageName "pve"
      (Body.json (JSON.arr
        [JSON.obj [("content", JSON.arr [JSON.str "iso"])],
         JSON.obj [("storage", JSON.str "local"),
           ("content", JSON.arr [JSON.str "iso"])]]))
      = .ok "local" :=
  ⟨rfl, rfl, rfl, rfl, rfl⟩

/-- Claim C4 (amended): the candidate name is the value of the storage
field whenever that field is string-typed, even when it is the empty
string; the name field is consulted only when storage is absent or not a
string; and a record whose candidate name is empty is skipped. -/
theorem candidateName_precedence (item : Obj) :
    (∀ s, getStr item "storage" = some s → candidateName item = s) ∧
    (getStr item "storage" = none →
      ∀ s, getStr item "name" = some s → candidateName item = s) ∧
    (getStr item "storage" = none → getStr item "name" = none →
      candidateName item = "") ∧
    (∀ node rest, candidateName item = "" →
      findISOLoop node (item :: rest) = findISOLoop node rest) := by
  refine ⟨?_, ?_, ?_, ?_⟩
  · intro s h; unfold candidateName; rw [h]
  · intro h s h2; unfold candidateName; rw [h, h2]
  · intro h h2; unfold candidateName; rw [h, h2]
  · intro node rest h; exact findISOLoop_skip node item rest (Or.inl h)

/-- Witness for C4 (amended): the name field supplies the candidate when
storage is absent. -/
theorem candidateName_precedence_witness :
    candidateName [("name", JSON.str "iso-store")] = "iso-store" :=
  (candidateName_precedence [("name", JSON.str "iso-store")]).2.1 rfl
    "iso-store" rfl

/-- Counterexample to C4 as stated: a record whose storage field is the
empty string and whose name field is "local" gets candidate name "", not
"local", and is skipped, so an otherwise qualifying listing ends in the
not-found error. -/
theorem candidateName_precedence_counterexample :
    getStr [("storage", JSON.str ""), ("name", JSON.str "local"),
      ("content", JSON.arr [JSON.str "iso"])] "storage" = some "" ∧
    getStr [("storage", JSON.str ""), ("name", JSON.str "local"),
      ("content", JSON.arr [JSON.str "iso"])] "name" = some "local" ∧
    candidateName [("storage", JSON.str ""), ("name", JSON.str "local"),
      ("content", JSON.arr [JSON.str "iso"])] = "" ∧
    findISOStorageName "pve"
      (Body.json (JSON.arr [JSON.obj [("storage", JSON.str ""),
        ("name", JSON.str "local"), ("content", JSON.arr [JSON.str "iso"])]]))
      = .error (.notFound ("no ISO-capable storage found on node " ++ "pve")) :=
  ⟨rfl, rfl, rfl, rfl⟩

/-- Claim C6: a decoded listing in which no record both yields a candidate
name and advertises "iso" content (the empty listing included) makes the
discovery fail with the not-found error naming the queried node. -/
theorem findISOStorageName_notFound (node : String) (body : Body)
    (items : List Obj)
    (hdec : unmarshalObjList body = .ok items)
    (hno : ∀ it ∈ items, candidateName it = "" ∨ hasISOContent it = false) :
    findISOStorageName node body =
      .error (.notFound ("no ISO-capable storage found on node " ++ node)) := by
  unfold findISOStorageName
  rw [hdec]
  exact findISOLoop_notFound node items hno

/-- Witness for C6: the empty listing yields the not-found error. -/
theorem findISOStorageName_notFound_witness :
    findISOStorageName "pve" (Body.json (JSON.arr [])) =
      .error (.notFound ("no ISO-capable storage found on node " ++ "pve")) :=
  findISOStorageName_notFound "pve" (Body.json (JSON.arr [])) [] rfl (by simp)

/-- Claim C10: a record's content field qualifies it exactly when that
field is an array containing the string "iso" — absent, non-array or
non-string elements never make the scan fail, and the discovery loop as a
whole can only succeed or report not-found. -/
theorem hasISOContent_tolerant (item : Obj) :
    (hasISOContent item = true ↔
      ∃ content, getField item "content" = some (JSON.arr content) ∧
        JSON.str "iso" ∈ content) ∧
    (∀ node items, (∃ s, findISOLoop node items = .ok s) ∨
      (∃ m, findISOLoop node items = .error (.notFound m))) := by
  constructor
  · unfold hasISOContent
    cases h : getField item "content" with
    | none => simp
    | some v => cases v <;> simp [contentHasISO_iff]
  · intro node items
    induction items with
    | nil => exact Or.inr ⟨_, rfl⟩
    | cons it rest ih =>
      by_cases hc : candidateName it = ""
      · rw [findISOLoop_skip node it rest (Or.inl hc)]; exact ih
      · by_cases hi : hasISOContent it = true
        · exact Or.inl ⟨candidateName it, findISOLoop_hit node it rest hc hi⟩
        · rw [findISOLoop_skip node it rest (Or.inr (Bool.eq_false_iff.mpr hi))]
          exact ih

/-- Claim C3: on a decoded download response, a string-typed data field is
returned unchanged, and an object-typed data field yields its string-typed
upid value. -/
theorem startStorageDownload_extracts (node storage isoName sourceURL : String)
    (body : Body) (w : Obj)
    (hdec : unmarshalObjMap body = .ok w) :
    (∀ s, getField w "data" = some (JSON.str s) →
      startStorageDownload node storage isoName sourceURL body = .ok s) ∧
    (∀ o u, getField w "data" = some (JSON.obj o) → getStr o "upid" = some u →
      startStorageDownload node storage isoName sourceURL body = .ok u) := by
  unfold startStorageDownload
  rw [hdec]
  constructor
  · intro s h
    simp [extractTaskID, h]
  · intro o u h hu
    simp [extractTaskID, h, hu]

/-- Witness for C3: both the plain-string shape and the nested-upid shape
are extracted. -/
theorem startStorageDownload_extracts_witness :
    startStorageDownload "pve" "local" "ubuntu.iso" "https://example.com/ubuntu.iso"
      (Body.json (JSON.obj [("data", JSON.str "UPID:pve:00001234:")]))
      = .ok "UPID:pve:00001234:" ∧
    startStorageDownload "pve" "local" "ubuntu.iso" "https://example.com/ubuntu.iso"
      (Body.json (JSON.obj [("data", JSON.obj [("upid", JSON.str "UPID:pve:00001234:")])]))
      = .ok "UPID:pve:00001234:" :=
  ⟨(startStorageDownload_extracts "pve" "local" "ubuntu.iso"
      "https://example.com/ubuntu.iso"
      (Body.json (JSON.obj [("data", JSON.str "UPID:pve:00001234:")]))
      [("data", JSON.str "UPID:pve:00001234:")] rfl).1 "UPID:pve:00001234:" rfl,
   (startStorageDownload_extracts "pve" "local" "ubuntu.iso"
      "https://example.com/ubuntu.iso"
      (Body.json (JSON.obj [("data", JSON.obj [("upid", JSON.str "UPID:pve:00001234:")])]))
      [("data", JSON.obj [("upid", JSON.str "UPID:pve:00001234:")])] rfl).2
      [("upid", JSON.str "UPID:pve:00001234:")] "UPID:pve:00001234:" rfl rfl⟩

/-- Claim C5: on a decoded download response whose data field is absent,
of a type other than string or object, or an object without a string-typed
upid, the extraction fails with the unexpected-response error carrying the
decoded payload, and returns no task identifier. -/
theorem startStorageDownload_unexpected (node storage isoName sourceURL : String)
    (body : Body) (w : Obj)
    (hdec : unmarshalObjMap body = .ok w) :
    (getField w "data" = none →
      startStorageDownload node storage isoName sourceURL body =
        .error (.unexpected "unexpected download response" w)) ∧
    (∀ j, getField w "data" = some j → isStr j = false → isObj j = false →
      startStorageDownload node storage isoName sourceURL body =
        .error (.unexpected "unexpected download response" w)) ∧
    (∀ o, getField w "data" = some (JSON.obj o) → getStr o "upid" = none →
      startStorageDownload node storage isoName sourceURL body =
        .error (.unexpected "unexpected download response" w)) := by
  unfold startStorageDownload
  rw [hdec]
  refine ⟨?_, ?_, ?_⟩
  · intro h
    simp [extractTaskID, h]
  · intro j h hs ho
    cases j <;> simp_all [extractTaskID, isStr, isObj]
  · intro o h hu
    simp [extractTaskID, h, hu]

/-- Witness for C5: a numeric data field is rejected with the
unexpected-response error. -/
theorem startStorageDownload_unexpected_witness :
    startStorageDownload "pve" "local" "ubuntu.iso" "https://example.com/ubuntu.iso"
      (Body.json (JSON.obj [("data", JSON.num 5)]))
      = .error (.unexpected "unexpected download response" [("data", JSON.num 5)]) :=
  (startStorageDownload_unexpected "pve" "local" "ubuntu.iso"
    "https://example.com/ubuntu.iso"
    (Body.json (JSON.obj [("data", JSON.num 5)]))
    [("data", JSON.num 5)] rfl).2.1 (JSON.num 5) rfl rfl rfl

/-- Claim C8: whenever the response body fails to unmarshal into the
expected generic shape, each of the three operations fails with its decode
error, the wrapping message and the original cause both preserved. -/
theorem decode_error_wraps (node storage isoName sourceURL cause : String)
    (body : Body) :
    (unmarshalObjList body = .error cause →
      findISOStorageName node body =
        .error (.decode "failed to parse storage list" cause)) ∧
    (unmarshalObjList body = .error cause →
      storageHasISO node storage isoName body =
        .error (.decode "failed to parse storage content" cause)) ∧
    (unmarshalObjMap body = .error cause →
      startStorageDownload node storage isoName sourceURL body =
        .error (.decode "failed to parse download response" cause)) := by
  refine ⟨?_, ?_, ?_⟩ <;> intro h
  · simp [findISOStorageName, h]
  · simp [storageHasISO, h]
  · simp [startStorageDownload, h]

/-- Witness for C8: a non-JSON body propagates its parse error through all
three wrappers. -/
theorem decode_error_wraps_witness :
    findISOStorageName "pve" (Body.invalid "unexpected end of JSON input") =
      .error (.decode "failed to parse storage list"
        "unexpected end of JSON input") ∧
    storageHasISO "pve" "local" "ubuntu.iso"
      (Body.invalid "unexpected end of JSON input") =
      .error (.decode "failed to parse storage content"
        "unexpected end of JSON input") ∧
    startStorageDownload "pve" "local" "ubuntu.iso"
      "https://example.com/ubuntu.iso"
      (Body.invalid "unexpected end of JSON input") =
      .error (.decode "failed to parse download response"
        "unexpected end of JSON input") :=
  ⟨(decode_error_wraps "pve" "local" "ubuntu.iso" "https://example.com/ubuntu.iso"
      "unexpected end of JSON input"
      (Body.invalid "unexpected end of JSON input")).1 rfl,
   (decode_error_wraps "pve" "local" "ubuntu.iso" "https://example.com/ubuntu.iso"
      "unexpected end of JSON input"
      (Body.invalid "unexpected end of JSON input")).2.1 rfl,
   (decode_error_wraps "pve" "local" "ubuntu.iso" "https://example.com/ubuntu.iso"
      "unexpected end of JSON input"
      (Body.invalid "unexpected end of JSON input")).2.2 rfl⟩

end ProxmoxHelpers
